import Mathlib

/-!
# Verification of the mortgage calculation engine

Shallow embedding of the three handlers in `src/routes/mortgageRoutes.js`
(`POST /mortgage/calculate`, `POST /mortgage/affordability`,
`POST /mortgage/compare`). JavaScript numbers are modelled as exact
rationals (`ℚ`); every arithmetic expression below mirrors the
corresponding JavaScript expression, including association and branch
structure. The request-validation layer (Joi schemas) is modelled by the
`Valid*` predicates: `positive`/`min(0)`/`integer` constraints.
-/

namespace Mortgage

/-- Body of `POST /mortgage/calculate`: `{principal, interestRate, loanTerm}`.
`loanTerm` is validated as a positive integer (years), so it is a `ℕ` here. -/
structure CalcInput where
  principal : ℚ
  interestRate : ℚ
  loanTerm : ℕ
deriving DecidableEq

/-- Joi schema `mortgageSchemas.calculate`: principal positive,
interestRate ≥ 0, loanTerm a positive integer. -/
def ValidCalc (i : CalcInput) : Prop :=
  0 < i.principal ∧ 0 ≤ i.interestRate ∧ 0 < i.loanTerm

instance (i : CalcInput) : Decidable (ValidCalc i) := by
  unfold ValidCalc; infer_instance

/-- `const monthlyInterestRate = interestRate / 100 / 12;` -/
def monthlyRate (i : CalcInput) : ℚ := i.interestRate / 100 / 12

/-- `const loanTermMonths = loanTerm * 12;` -/
def termMonths (i : CalcInput) : ℕ := i.loanTerm * 12

/-- `monthlyPayment`: zero-rate branch `principal / loanTermMonths`,
otherwise the annuity formula
`principal * (r * (1+r)^n) / ((1+r)^n - 1)`. -/
def monthlyPayment (i : CalcInput) : ℚ :=
  if monthlyRate i = 0 then
    i.principal / (termMonths i : ℚ)
  else
    i.principal *
      (monthlyRate i * (1 + monthlyRate i) ^ termMonths i) /
      ((1 + monthlyRate i) ^ termMonths i - 1)

/-- `totalPayment`: `principal` in the zero-rate branch, else
`monthlyPayment * loanTermMonths`. -/
def totalPayment (i : CalcInput) : ℚ :=
  if monthlyRate i = 0 then i.principal
  else monthlyPayment i * (termMonths i : ℚ)

/-- `totalInterest`: `0` in the zero-rate branch, else
`totalPayment - principal`. -/
def totalInterest (i : CalcInput) : ℚ :=
  if monthlyRate i = 0 then 0
  else totalPayment i - i.principal

/-- One entry of `amortizationSchedule`. -/
structure Row where
  month : ℕ
  payment : ℚ
  principalPayment : ℚ
  interestPayment : ℚ
  remainingBalance : ℚ
deriving DecidableEq

/-- The running (unclamped) `remainingBalance` variable of the loop after
`m` iterations: starts at `principal`; each month subtracts
`principalPayment = monthlyPayment - remainingBalance * monthlyInterestRate`. -/
def balance (i : CalcInput) : ℕ → ℚ
  | 0 => i.principal
  | m + 1 => balance i m - (monthlyPayment i - balance i m * monthlyRate i)

/-- `interestPayment` computed by the loop in month `m` (1-based):
`remainingBalance * monthlyInterestRate` on the balance entering the month. -/
def interestFor (i : CalcInput) (m : ℕ) : ℚ :=
  balance i (m - 1) * monthlyRate i

/-- `principalPayment` computed by the loop in month `m`:
`monthlyPayment - interestPayment`. -/
def principalFor (i : CalcInput) (m : ℕ) : ℚ :=
  monthlyPayment i - interestFor i m

/-- Values pushed for month `m` (1-based): `interestPayment`,
`principalPayment`, and the stored balance clamped with `Math.max(0, ...)`. -/
def mkRow (i : CalcInput) (m : ℕ) : Row :=
  { month := m
    payment := monthlyPayment i
    principalPayment := principalFor i m
    interestPayment := interestFor i m
    remainingBalance := max 0 (balance i m) }

/-- The loop guard for pushing a row:
`month <= 12 || month === loanTermMonths || month % 12 === 0`. -/
def keepMonth (n m : ℕ) : Prop := m ≤ 12 ∨ m = n ∨ m % 12 = 0

instance (n m : ℕ) : Decidable (keepMonth n m) := by
  unfold keepMonth; infer_instance

/-- The amortization loop, processing months `1..k` in order: returns the
running balance together with the rows pushed so far. -/
def runSchedule (i : CalcInput) : ℕ → ℚ × List Row
  | 0 => (i.principal, [])
  | k + 1 =>
    let s := runSchedule i k
    let month := k + 1
    let interest := s.1 * monthlyRate i
    let principalPart := monthlyPayment i - interest
    let bal := s.1 - principalPart
    (bal,
      if keepMonth (termMonths i) month then
        s.2 ++ [{ month := month
                  payment := monthlyPayment i
                  principalPayment := principalPart
                  interestPayment := interest
                  remainingBalance := max 0 bal }]
      else s.2)

/-- `amortizationSchedule` as returned by `POST /mortgage/calculate`:
the loop run over months `1..loanTermMonths`. -/
def amortizationSchedule (i : CalcInput) : List Row :=
  (runSchedule i (termMonths i)).2

/-- Body of `POST /mortgage/affordability`. -/
structure AffordInput where
  annualIncome : ℚ
  monthlyDebts : ℚ
  downPayment : ℚ
  interestRate : ℚ
  loanTerm : ℕ
  propertyTaxRate : ℚ
  insuranceRate : ℚ
deriving DecidableEq

/-- Joi schema `mortgageSchemas.affordability`: annualIncome positive,
loanTerm a positive integer, all other fields ≥ 0. -/
def ValidAfford (a : AffordInput) : Prop :=
  0 < a.annualIncome ∧ 0 ≤ a.monthlyDebts ∧ 0 ≤ a.downPayment ∧
    0 ≤ a.interestRate ∧ 0 < a.loanTerm ∧
    0 ≤ a.propertyTaxRate ∧ 0 ≤ a.insuranceRate

instance (a : AffordInput) : Decidable (ValidAfford a) := by
  unfold ValidAfford; infer_instance

/-- `results.paymentBreakdown` of the affordability response. -/
structure PaymentBreakdown where
  principalAndInterest : ℚ
  taxes : ℚ
  insurance : ℚ
deriving DecidableEq

/-- `results` of the affordability response (`debtToIncomeRatio` is the
source's `dti` variable). -/
structure AffordResult where
  maxHomePrice : ℚ
  monthlyPayment : ℚ
  paymentBreakdown : PaymentBreakdown
  dti : ℚ
deriving DecidableEq

/-- `availableForHousing = Math.min(maxHousingPayment, maxTotalDebtPayment - monthlyDebts)`
with `maxHousingPayment = monthlyIncome * 0.28` and
`maxTotalDebtPayment = monthlyIncome * 0.36`, `monthlyIncome = annualIncome / 12`. -/
def availableForHousing (a : AffordInput) : ℚ :=
  min (a.annualIncome / 12 * 0.28) (a.annualIncome / 12 * 0.36 - a.monthlyDebts)

/-- `maxLoanAmount`: `availableForHousing * loanTermMonths` at zero rate, else
`availableForHousing / (annuity-factor + propertyTaxRate/100/12 + insuranceRate/100/12)`. -/
def maxLoanAmount (a : AffordInput) : ℚ :=
  let monthlyInterestRate := a.interestRate / 100 / 12
  let loanTermMonths := a.loanTerm * 12
  if monthlyInterestRate = 0 then
    availableForHousing a * (loanTermMonths : ℚ)
  else
    availableForHousing a /
      (monthlyInterestRate * (1 + monthlyInterestRate) ^ loanTermMonths /
        ((1 + monthlyInterestRate) ^ loanTermMonths - 1) +
        a.propertyTaxRate / 100 / 12 +
        a.insuranceRate / 100 / 12)

/-- `maxHomePrice = maxLoanAmount + downPayment;` -/
def maxHomePrice (a : AffordInput) : ℚ := maxLoanAmount a + a.downPayment

/-- The `POST /mortgage/affordability` handler after `maxHomePrice`:
`loanAmount = maxHomePrice - downPayment`; `principalAndInterest` via the
annuity formula on `loanAmount`; taxes and insurance on `maxHomePrice`;
`dti = ((totalMonthlyPayment + monthlyDebts) / monthlyIncome) * 100`. -/
def affordability (a : AffordInput) : AffordResult :=
  let monthlyIncome := a.annualIncome / 12
  let monthlyInterestRate := a.interestRate / 100 / 12
  let loanTermMonths := a.loanTerm * 12
  let loanAmount := maxHomePrice a - a.downPayment
  let principalAndInterest :=
    if monthlyInterestRate = 0 then
      loanAmount / (loanTermMonths : ℚ)
    else
      loanAmount *
        (monthlyInterestRate * (1 + monthlyInterestRate) ^ loanTermMonths) /
        ((1 + monthlyInterestRate) ^ loanTermMonths - 1)
  let monthlyTaxes := maxHomePrice a * a.propertyTaxRate / 100 / 12
  let monthlyInsurance := maxHomePrice a * a.insuranceRate / 100 / 12
  let totalMonthlyPayment := principalAndInterest + monthlyTaxes + monthlyInsurance
  { maxHomePrice := maxHomePrice a
    monthlyPayment := totalMonthlyPayment
    paymentBreakdown :=
      { principalAndInterest := principalAndInterest
        taxes := monthlyTaxes
        insurance := monthlyInsurance }
    dti := (totalMonthlyPayment + a.monthlyDebts) / monthlyIncome * 100 }

/-- One element of `loanOptions` in `POST /mortgage/compare`. -/
structure LoanOption where
  amount : ℚ
  interestRate : ℚ
  term : ℕ
  type : String
  points : ℚ
  fees : ℚ
deriving DecidableEq

/-- Annotated option of the comparison response. -/
structure CompareResult where
  option : LoanOption
  monthlyPayment : ℚ
  totalInterest : ℚ
  totalCost : ℚ
deriving DecidableEq

/-- The per-option body of the `loanOptions.map` in `POST /mortgage/compare`:
`pointsCost = (points / 100) * amount`; payment by the zero-rate branch or
the annuity formula; `totalInterest = monthlyPayment * loanTermMonths - amount`;
`totalCost = amount + totalInterest + pointsCost + fees`. -/
def compareOption (o : LoanOption) : CompareResult :=
  let pointsCost := o.points / 100 * o.amount
  let monthlyInterestRate := o.interestRate / 100 / 12
  let loanTermMonths := o.term * 12
  let monthlyPayment :=
    if monthlyInterestRate = 0 then
      o.amount / (loanTermMonths : ℚ)
    else
      o.amount *
        (monthlyInterestRate * (1 + monthlyInterestRate) ^ loanTermMonths) /
        ((1 + monthlyInterestRate) ^ loanTermMonths - 1)
  let totalPayments := monthlyPayment * (loanTermMonths : ℚ)
  let totalInterest := totalPayments - o.amount
  { option := o
    monthlyPayment := monthlyPayment
    totalInterest := totalInterest
    totalCost := o.amount + totalInterest + pointsCost + o.fees }

/-- `POST /mortgage/compare`: `results = loanOptions.map(...)`. -/
def compareLoans (l : List LoanOption) : List CompareResult :=
  l.map compareOption

/-- Partial geometric sum `1 + x + ... + x^(m-1)`, in the recurrence form
matching the month-by-month balance evolution. -/
def geomSum (x : ℚ) : ℕ → ℚ
  | 0 => 0
  | m + 1 => geomSum x m * x + 1

/-- The loop guard as a `Bool`-valued filter predicate. -/
def keepMonthB (n m : ℕ) : Bool := decide (keepMonth n m)

theorem keepMonthB_eq (n m : ℕ) : keepMonthB n m = true ↔ keepMonth n m := by
  simp [keepMonthB]

/-- The running balance of the loop agrees with `balance`. -/
theorem runSchedule_fst (i : CalcInput) : ∀ k, (runSchedule i k).1 = balance i k
  | 0 => rfl
  | k + 1 => by
    simp only [runSchedule, balance, runSchedule_fst i k]

/-- The rows accumulated after `k` iterations are exactly the retained
months among `1..k`, in order, with the loop's per-month values. -/
theorem runSchedule_snd (i : CalcInput) :
    ∀ k, (runSchedule i k).2 =
      ((List.range' 1 k).filter (keepMonthB (termMonths i))).map (mkRow i)
  | 0 => rfl
  | k + 1 => by
    have hrange : List.range' 1 (k + 1) = List.range' 1 k ++ [1 + k] :=
      List.range'_1_concat 1 k
    rw [hrange, List.filter_append, List.map_append]
    simp only [runSchedule, runSchedule_snd i k, runSchedule_fst i k]
    have hm : 1 + k = k + 1 := Nat.add_comm 1 k
    rw [hm]
    by_cases hk : keepMonth (termMonths i) (k + 1)
    · rw [if_pos hk]
      have : List.filter (keepMonthB (termMonths i)) [k + 1] = [k + 1] := by
        simp [keepMonthB, hk]
      rw [this]
      simp [mkRow, interestFor, principalFor, balance]
    · rw [if_neg hk]
      have : List.filter (keepMonthB (termMonths i)) [k + 1] = [] := by
        simp [keepMonthB, hk]
      rw [this]
      simp

/-- The full amortization schedule in filter/map form. -/
theorem amortizationSchedule_eq (i : CalcInput) :
    amortizationSchedule i =
      ((List.range' 1 (termMonths i)).filter
        (keepMonthB (termMonths i))).map (mkRow i) :=
  runSchedule_snd i (termMonths i)

theorem mem_amortizationSchedule (i : CalcInput) {r : Row} :
    r ∈ amortizationSchedule i ↔
      ∃ m, (1 ≤ m ∧ m ≤ termMonths i ∧ keepMonth (termMonths i) m) ∧
        r = mkRow i m := by
  rw [amortizationSchedule_eq]
  simp only [List.mem_map, List.mem_filter, List.mem_range'_1, keepMonthB_eq]
  constructor
  · rintro ⟨m, ⟨⟨h1, h2⟩, h3⟩, rfl⟩
    exact ⟨m, ⟨h1, by omega, h3⟩, rfl⟩
  · rintro ⟨m, ⟨h1, h2, h3⟩, rfl⟩
    exact ⟨m, ⟨⟨h1, by omega⟩, h3⟩, rfl⟩

/-- The months of the retained rows, in order. -/
theorem schedule_months_eq (i : CalcInput) :
    (amortizationSchedule i).map Row.month =
      (List.range' 1 (termMonths i)).filter (keepMonthB (termMonths i)) := by
  rw [amortizationSchedule_eq, List.map_map]
  have : Row.month ∘ mkRow i = fun m => m := by
    funext m; rfl
  rw [this, List.map_id']

/-- C1. For every valid `LoanInputs`, the amortization schedule contains a
row for month `m` (with `1 ≤ m ≤ termMonths`) if and only if `m ≤ 12`, or
`m = termMonths`, or `m` is a multiple of 12; every row's month lies in
`1..termMonths`; and the months are strictly increasing, so each retained
month appears exactly once (in particular a single row at the final month
even though it is a multiple of 12). -/
theorem calc_schedule_month_policy (i : CalcInput) (h : ValidCalc i) :
    ((amortizationSchedule i).map Row.month).Pairwise (· < ·) ∧
    (∀ r ∈ amortizationSchedule i, 1 ≤ r.month ∧ r.month ≤ termMonths i) ∧
    (∀ m, 1 ≤ m → m ≤ termMonths i →
      (m ∈ (amortizationSchedule i).map Row.month ↔
        (m ≤ 12 ∨ m = termMonths i ∨ m % 12 = 0))) := by
  refine ⟨?_, ?_, ?_⟩
  · rw [schedule_months_eq]
    exact (List.pairwise_lt_range' 1 (termMonths i)).filter _
  · intro r hr
    rcases (mem_amortizationSchedule i).1 hr with ⟨m, ⟨h1, h2, _⟩, rfl⟩
    exact ⟨h1, h2⟩
  · intro m h1 h2
    rw [schedule_months_eq]
    simp only [List.mem_filter, List.mem_range'_1, keepMonthB_eq, keepMonth]
    constructor
    · rintro ⟨_, hk⟩
      exact hk
    · intro hk
      exact ⟨⟨h1, by omega⟩, hk⟩

/-- Witness for C1 at `principal = 1000`, `interestRate = 5`, `loanTerm = 2`
(`termMonths = 24`): months are strictly increasing, and month 13 — neither
in the first year, nor the final month, nor a yearly anniversary — is
retained iff the policy says so. -/
theorem calc_schedule_month_policy_witness :
    ValidCalc ⟨1000, 5, 2⟩ ∧
    ((amortizationSchedule ⟨1000, 5, 2⟩).map Row.month).Pairwise (· < ·) ∧
    (13 ∈ (amortizationSchedule ⟨1000, 5, 2⟩).map Row.month ↔
      (13 ≤ 12 ∨ 13 = termMonths ⟨1000, 5, 2⟩ ∨ 13 % 12 = 0)) :=
  ⟨by decide,
   (calc_schedule_month_policy ⟨1000, 5, 2⟩ (by decide)).1,
   (calc_schedule_month_policy ⟨1000, 5, 2⟩ (by decide)).2.2 13 (by decide)
     (by decide)⟩

/-- C3. For every valid `LoanInputs` and every retained row,
`principalPayment + interestPayment` equals `monthlyPayment` within `1e-6`
absolute tolerance (in fact exactly: the loop computes
`principalPayment = monthlyPayment - interestPayment`). -/
theorem calc_row_sum (i : CalcInput) (h : ValidCalc i) :
    ∀ r ∈ amortizationSchedule i,
      |r.principalPayment + r.interestPayment - r.payment| ≤ 1 / 1000000 := by
  intro r hr
  rcases (mem_amortizationSchedule i).1 hr with ⟨m, _, rfl⟩
  have : (mkRow i m).principalPayment + (mkRow i m).interestPayment -
      (mkRow i m).payment = 0 := by
    simp [mkRow, principalFor]
  rw [this]
  norm_num

/-- Witness for C3 at `principal = 1200`, `interestRate = 0`, `loanTerm = 1`
and the retained row of month 1. -/
theorem calc_row_sum_witness :
    ValidCalc ⟨1200, 0, 1⟩ ∧
    |(mkRow ⟨1200, 0, 1⟩ 1).principalPayment +
        (mkRow ⟨1200, 0, 1⟩ 1).interestPayment -
        (mkRow ⟨1200, 0, 1⟩ 1).payment| ≤ 1 / 1000000 :=
  ⟨by decide,
   calc_row_sum ⟨1200, 0, 1⟩ (by decide) (mkRow ⟨1200, 0, 1⟩ 1)
     ((mem_amortizationSchedule _).2
       ⟨1, ⟨by decide, by decide, Or.inl (by decide)⟩, rfl⟩)⟩

/-- C5. For every valid `LoanInputs`: the running balance satisfies the
unclamped recurrence `b 0 = principal`,
`b (m+1) = b m - (monthlyPayment - b m * monthlyRate)`; every retained row
reports `remainingBalance = max 0 (b month)` (clamping applied only to the
stored value, never fed back into the recurrence); in particular every
reported `remainingBalance` is nonnegative. -/
theorem calc_balance_clamping (i : CalcInput) (h : ValidCalc i) :
    balance i 0 = i.principal ∧
    (∀ m, balance i (m + 1) =
      balance i m - (monthlyPayment i - balance i m * monthlyRate i)) ∧
    (∀ r ∈ amortizationSchedule i,
      r.remainingBalance = max 0 (balance i r.month) ∧
        0 ≤ r.remainingBalance) := by
  refine ⟨rfl, fun m => rfl, ?_⟩
  intro r hr
  rcases (mem_amortizationSchedule i).1 hr with ⟨m, _, rfl⟩
  exact ⟨rfl, le_max_left 0 _⟩

/-- Witness for C5 at `principal = 1200`, `interestRate = 0`, `loanTerm = 1`:
the recurrence at month 1 and the clamped reported balance of the retained
row of month 12. -/
theorem calc_balance_clamping_witness :
    ValidCalc ⟨1200, 0, 1⟩ ∧
    balance ⟨1200, 0, 1⟩ 1 =
      balance ⟨1200, 0, 1⟩ 0 -
        (monthlyPayment ⟨1200, 0, 1⟩ -
          balance ⟨1200, 0, 1⟩ 0 * monthlyRate ⟨1200, 0, 1⟩) ∧
    (mkRow ⟨1200, 0, 1⟩ 12).remainingBalance =
      max 0 (balance ⟨1200, 0, 1⟩ (mkRow ⟨1200, 0, 1⟩ 12).month) ∧
    0 ≤ (mkRow ⟨1200, 0, 1⟩ 12).remainingBalance :=
  ⟨by decide,
   (calc_balance_clamping ⟨1200, 0, 1⟩ (by decide)).2.1 0,
   ((calc_balance_clamping ⟨1200, 0, 1⟩ (by decide)).2.2
     (mkRow ⟨1200, 0, 1⟩ 12)
     ((mem_amortizationSchedule _).2
       ⟨12, ⟨by decide, by decide, Or.inl (by decide)⟩, rfl⟩)).1,
   ((calc_balance_clamping ⟨1200, 0, 1⟩ (by decide)).2.2
     (mkRow ⟨1200, 0, 1⟩ 12)
     ((mem_amortizationSchedule _).2
       ⟨12, ⟨by decide, by decide, Or.inl (by decide)⟩, rfl⟩)).2⟩

/-- C2. With `interestRate = 0` the zero-rate branch is taken:
`monthlyPayment = principal / (12 * loanTerm)`, `totalPayment = principal`,
`totalInterest = 0`, all exactly. -/
theorem calc_zero_rate (i : CalcInput) (h : ValidCalc i)
    (hr : i.interestRate = 0) :
    monthlyPayment i = i.principal / (12 * (i.loanTerm : ℚ)) ∧
    totalPayment i = i.principal ∧
    totalInterest i = 0 := by
  have hz : monthlyRate i = 0 := by
    simp [monthlyRate, hr]
  refine ⟨?_, ?_, ?_⟩
  · rw [monthlyPayment, if_pos hz]
    have : ((termMonths i : ℚ)) = 12 * (i.loanTerm : ℚ) := by
      simp [termMonths]
      ring
    rw [this]
  · rw [totalPayment, if_pos hz]
  · rw [totalInterest, if_pos hz]

/-- Witness for C2 at `principal = 1200`, `interestRate = 0`, `loanTerm = 3`. -/
theorem calc_zero_rate_witness :
    (ValidCalc ⟨1200, 0, 3⟩ ∧
      (CalcInput.mk 1200 0 3).interestRate = 0) ∧
    (monthlyPayment ⟨1200, 0, 3⟩ = 1200 / (12 * (3 : ℚ)) ∧
      totalPayment ⟨1200, 0, 3⟩ = 1200 ∧
      totalInterest ⟨1200, 0, 3⟩ = 0) :=
  ⟨⟨by decide, by decide⟩,
   by
    have := calc_zero_rate ⟨1200, 0, 3⟩ (by decide) (by decide)
    simpa using this⟩

/-- `(x - 1) * (1 + x + ... + x^(m-1)) = x^m - 1`. -/
theorem geomSum_mul (x : ℚ) : ∀ m, (x - 1) * geomSum x m = x ^ m - 1
  | 0 => by simp [geomSum]
  | m + 1 => by
    rw [geomSum, pow_succ]
    linear_combination x * geomSum_mul x m

/-- `geomSum 1 m = m`. -/
theorem geomSum_one : ∀ m, geomSum 1 m = (m : ℚ)
  | 0 => by simp [geomSum]
  | m + 1 => by
    rw [geomSum, geomSum_one m]
    push_cast
    ring

/-- Closed form of the running balance:
`balance m = (1+r)^m * principal - monthlyPayment * (1 + (1+r) + ... + (1+r)^(m-1))`. -/
theorem balance_closed (i : CalcInput) :
    ∀ m, balance i m =
      (1 + monthlyRate i) ^ m * i.principal -
        monthlyPayment i * geomSum (1 + monthlyRate i) m
  | 0 => by simp [balance, geomSum]
  | m + 1 => by
    rw [balance, balance_closed i m, geomSum, pow_succ]
    ring

/-- For a valid input the running balance reaches exactly 0 after the last
month, in both the zero-rate and the positive-rate branch. -/
theorem balance_termMonths (i : CalcInput) (h : ValidCalc i) :
    balance i (termMonths i) = 0 := by
  obtain ⟨hP, hr0, hT⟩ := h
  have hn : termMonths i ≠ 0 := by
    simp [termMonths]
    omega
  rw [balance_closed]
  by_cases hz : monthlyRate i = 0
  · rw [monthlyPayment, if_pos hz, hz]
    simp only [add_zero, one_pow, geomSum_one, one_mul]
    have hQ : ((termMonths i : ℚ)) ≠ 0 := Nat.cast_ne_zero.2 hn
    field_simp
  · have hrpos : 0 < monthlyRate i := by
      rcases lt_or_eq_of_le hr0 with h1 | h1
      · have : 0 < i.interestRate / 100 / 12 := by positivity
        simpa [monthlyRate] using this
      · exact absurd (by simp [monthlyRate, ← h1]) hz
    have hq : 1 < (1 + monthlyRate i) ^ termMonths i := by
      have h1r : 1 < 1 + monthlyRate i := by linarith
      calc (1 : ℚ) = 1 ^ termMonths i := (one_pow _).symm
        _ < (1 + monthlyRate i) ^ termMonths i :=
          pow_lt_pow_left₀ h1r (by norm_num) hn
    have hq0 : (1 + monthlyRate i) ^ termMonths i - 1 ≠ 0 :=
      ne_of_gt (by linarith)
    have hS : monthlyRate i * geomSum (1 + monthlyRate i) (termMonths i) =
        (1 + monthlyRate i) ^ termMonths i - 1 := by
      have := geomSum_mul (1 + monthlyRate i) (termMonths i)
      simpa using this
    have hpay : monthlyPayment i * geomSum (1 + monthlyRate i) (termMonths i) =
        i.principal * (1 + monthlyRate i) ^ termMonths i := by
      rw [monthlyPayment, if_neg hz, div_mul_eq_mul_div, div_eq_iff hq0]
      linear_combination
        (i.principal * ((1 + monthlyRate i) ^ termMonths i)) * hS
    rw [hpay]
    ring

/-- C4. For every valid `LoanInputs` the final retained row of the
amortization schedule is the row of month `termMonths`, and its reported
`remainingBalance` is exactly 0. -/
theorem calc_final_row (i : CalcInput) (h : ValidCalc i) :
    ((amortizationSchedule i).getLast?).map
      (fun r => (r.month, r.remainingBalance)) = some (termMonths i, 0) := by
  obtain ⟨hP, hr0, hT⟩ := h
  have hn : termMonths i ≠ 0 := by
    simp [termMonths]
    omega
  obtain ⟨k, hk⟩ : ∃ k, termMonths i = k + 1 :=
    ⟨termMonths i - 1, by omega⟩
  have h1k : 1 + k = k + 1 := Nat.add_comm 1 k
  have hsched : amortizationSchedule i =
      ((List.range' 1 k).filter (keepMonthB (k + 1))).map (mkRow i) ++
        [mkRow i (k + 1)] := by
    rw [amortizationSchedule_eq, hk, List.range'_1_concat,
      List.filter_append, List.map_append]
    have hf : List.filter (keepMonthB (k + 1)) [1 + k] = [1 + k] := by
      simp [keepMonthB, keepMonth, h1k]
    rw [hf, h1k, List.map_singleton]
  rw [hsched, List.getLast?_concat, ← hk]
  have hb := balance_termMonths i ⟨hP, hr0, hT⟩
  simp [mkRow, hb]

/-- Witness for C4 at `principal = 1000`, `interestRate = 5`, `loanTerm = 2`. -/
theorem calc_final_row_witness :
    ValidCalc ⟨1000, 5, 2⟩ ∧
    ((amortizationSchedule ⟨1000, 5, 2⟩).getLast?).map
      (fun r => (r.month, r.remainingBalance)) =
        some (termMonths ⟨1000, 5, 2⟩, 0) :=
  ⟨by decide, calc_final_row ⟨1000, 5, 2⟩ (by decide)⟩

/-- With a positive annual rate the monthly rate is positive. -/
theorem monthlyRate_pos (i : CalcInput) (hr : 0 < i.interestRate) :
    0 < monthlyRate i := by
  have : 0 < i.interestRate / 100 / 12 := by positivity
  simpa [monthlyRate] using this

/-- With a positive rate, the annuity payment strictly exceeds the first
month's interest `principal * monthlyRate`. -/
theorem payment_gt_first_interest (i : CalcInput) (h : ValidCalc i)
    (hr : 0 < i.interestRate) :
    i.principal * monthlyRate i < monthlyPayment i := by
  obtain ⟨hP, hr0, hT⟩ := h
  have hrpos : 0 < monthlyRate i := monthlyRate_pos i hr
  have hz : monthlyRate i ≠ 0 := ne_of_gt hrpos
  have hn : termMonths i ≠ 0 := by
    simp [termMonths]
    omega
  have hq : 1 < (1 + monthlyRate i) ^ termMonths i := by
    have h1r : 1 < 1 + monthlyRate i := by linarith
    calc (1 : ℚ) = 1 ^ termMonths i := (one_pow _).symm
      _ < (1 + monthlyRate i) ^ termMonths i :=
        pow_lt_pow_left₀ h1r (by norm_num) hn
  rw [monthlyPayment, if_neg hz, lt_div_iff₀ (by linarith)]
  have hPr : 0 < i.principal * monthlyRate i := mul_pos hP hrpos
  nlinarith

/-- The gap `monthlyPayment - balance m * monthlyRate` (the principal part
of month `m+1`) grows geometrically. -/
theorem decrement_eq (i : CalcInput) :
    ∀ m, monthlyPayment i - balance i m * monthlyRate i =
      (1 + monthlyRate i) ^ m *
        (monthlyPayment i - i.principal * monthlyRate i)
  | 0 => by simp [balance]
  | m + 1 => by
    rw [balance, pow_succ]
    linear_combination (1 + monthlyRate i) * decrement_eq i m

/-- With a positive rate the unclamped balance strictly decreases at every
month. -/
theorem balance_strict_anti (i : CalcInput) (h : ValidCalc i)
    (hr : 0 < i.interestRate) :
    ∀ m, balance i (m + 1) < balance i m := by
  intro m
  have hgap : 0 < monthlyPayment i - balance i m * monthlyRate i := by
    rw [decrement_eq i m]
    have h1 : 0 < monthlyPayment i - i.principal * monthlyRate i :=
      sub_pos.2 (payment_gt_first_interest i h hr)
    have h2 : (0 : ℚ) < (1 + monthlyRate i) ^ m := by
      have := monthlyRate_pos i hr
      positivity
    exact mul_pos h2 h1
  rw [balance]
  linarith

/-- C10. For every valid `LoanInputs` with a positive rate (and at least two
months): `monthlyPayment > principal * monthlyRate`, the running balance
strictly decreases every month, and over the month walk the per-month
`interestPayment` is strictly decreasing while the per-month
`principalPayment` is strictly increasing. -/
theorem calc_monotone (i : CalcInput) (h : ValidCalc i)
    (hr : 0 < i.interestRate) (hn2 : 2 ≤ termMonths i) :
    i.principal * monthlyRate i < monthlyPayment i ∧
    (∀ m, m < termMonths i → balance i (m + 1) < balance i m) ∧
    (∀ m, 1 ≤ m → m < termMonths i →
      interestFor i (m + 1) < interestFor i m ∧
      principalFor i m < principalFor i (m + 1)) := by
  refine ⟨payment_gt_first_interest i h hr, ?_, ?_⟩
  · intro m _
    exact balance_strict_anti i h hr m
  · intro m hm1 _
    have hrpos : 0 < monthlyRate i := monthlyRate_pos i hr
    have hbal : balance i m < balance i (m - 1) := by
      obtain ⟨j, hj⟩ : ∃ j, m = j + 1 := ⟨m - 1, by omega⟩
      subst hj
      simpa using balance_strict_anti i h hr j
    have hint : interestFor i (m + 1) < interestFor i m := by
      unfold interestFor
      simp only [Nat.add_sub_cancel]
      exact mul_lt_mul_of_pos_right hbal hrpos
    exact ⟨hint, by
      unfold principalFor
      linarith⟩

/-- Witness for C10 at `principal = 1000`, `interestRate = 12`,
`loanTerm = 1`, month 1. -/
theorem calc_monotone_witness :
    ValidCalc ⟨1000, 12, 1⟩ ∧ (0 : ℚ) < 12 ∧ 2 ≤ termMonths ⟨1000, 12, 1⟩ ∧
    (1000 : ℚ) * monthlyRate ⟨1000, 12, 1⟩ < monthlyPayment ⟨1000, 12, 1⟩ ∧
    balance ⟨1000, 12, 1⟩ 1 < balance ⟨1000, 12, 1⟩ 0 ∧
    interestFor ⟨1000, 12, 1⟩ 2 < interestFor ⟨1000, 12, 1⟩ 1 ∧
    principalFor ⟨1000, 12, 1⟩ 1 < principalFor ⟨1000, 12, 1⟩ 2 :=
  ⟨by decide, by decide, by decide,
   (calc_monotone ⟨1000, 12, 1⟩ (by decide) (by decide) (by decide)).1,
   (calc_monotone ⟨1000, 12, 1⟩ (by decide) (by decide) (by decide)).2.1 0
     (by decide),
   ((calc_monotone ⟨1000, 12, 1⟩ (by decide) (by decide) (by decide)).2.2 1
     (by decide) (by decide)).1,
   ((calc_monotone ⟨1000, 12, 1⟩ (by decide) (by decide) (by decide)).2.2 1
     (by decide) (by decide)).2⟩

/-- C6. For the affordability request `annualIncome = 90000`,
`monthlyDebts = 300`, `downPayment = 20000`, `interestRate = 5`,
`loanTerm = 30`, `propertyTaxRate = 1.2`, `insuranceRate = 0.5`:
`availableForHousing` is nonnegative and the returned `debtToIncomeRatio`
is at most 36 (hence at most 36 plus any tolerance). -/
theorem afford_dti_bounded :
    0 ≤ availableForHousing ⟨90000, 300, 20000, 5, 30, 12/10, 5/10⟩ ∧
    (affordability ⟨90000, 300, 20000, 5, 30, 12/10, 5/10⟩).dti ≤ 36 := by
  constructor
  · norm_num [availableForHousing, min_def]
  · norm_num [affordability, maxHomePrice, maxLoanAmount,
      availableForHousing, min_def]

/-- C9. For `principal = 200000`, `interestRate = 6`, `loanTerm = 30` the
computed monthly payment is within `0.005` of the reference value
`1199.10`. -/
theorem calc_reference_payment :
    |monthlyPayment ⟨200000, 6, 30⟩ - 1199.10| < 0.005 := by
  rw [abs_sub_lt_iff]
  constructor
  · norm_num [monthlyPayment, monthlyRate, termMonths]
  · norm_num [monthlyPayment, monthlyRate, termMonths]

/-- C7. For every valid affordability input whose `monthlyDebts` exceed
`0.36 * (annualIncome / 12)`: `availableForHousing` is negative, the implied
`maxLoanAmount = maxHomePrice - downPayment` is negative, the negative value
propagates uncorrected into `paymentBreakdown.principalAndInterest`, and the
returned `monthlyPayment` is the unclamped sum of the breakdown parts. -/
theorem afford_negative_passthrough (a : AffordInput) (h : ValidAfford a)
    (hd : a.annualIncome / 12 * 0.36 < a.monthlyDebts) :
    availableForHousing a < 0 ∧
    maxHomePrice a - a.downPayment < 0 ∧
    (affordability a).paymentBreakdown.principalAndInterest < 0 ∧
    (affordability a).monthlyPayment =
      (affordability a).paymentBreakdown.principalAndInterest +
        (affordability a).paymentBreakdown.taxes +
        (affordability a).paymentBreakdown.insurance := by
  obtain ⟨hInc, hDebt, hDown, hIr, hTerm, hTax, hIns⟩ := h
  have hav : availableForHousing a < 0 := by
    have h2 : a.annualIncome / 12 * 0.36 - a.monthlyDebts < 0 := by linarith
    exact lt_of_le_of_lt (min_le_right _ _) h2
  have hnQ : (0 : ℚ) < ((a.loanTerm * 12 : ℕ) : ℚ) := by
    have : 0 < a.loanTerm * 12 := by omega
    exact_mod_cast this
  have hn0 : a.loanTerm * 12 ≠ 0 := by omega
  have hml : maxLoanAmount a < 0 := by
    simp only [maxLoanAmount]
    by_cases hz : a.interestRate / 100 / 12 = 0
    · rw [if_pos hz]
      exact mul_neg_of_neg_of_pos hav hnQ
    · rw [if_neg hz]
      have hr : 0 < a.interestRate / 100 / 12 := by
        rcases lt_or_eq_of_le hIr with h1 | h1
        · positivity
        · exact absurd (by rw [← h1]; norm_num) hz
      have hq : 1 < (1 + a.interestRate / 100 / 12) ^ (a.loanTerm * 12) := by
        calc (1 : ℚ) = 1 ^ (a.loanTerm * 12) := (one_pow _).symm
          _ < (1 + a.interestRate / 100 / 12) ^ (a.loanTerm * 12) :=
            pow_lt_pow_left₀ (by linarith) (by norm_num) hn0
      have haf : 0 < a.interestRate / 100 / 12 *
          (1 + a.interestRate / 100 / 12) ^ (a.loanTerm * 12) /
          ((1 + a.interestRate / 100 / 12) ^ (a.loanTerm * 12) - 1) :=
        div_pos (mul_pos hr (by positivity)) (by linarith)
      have hD : 0 < a.interestRate / 100 / 12 *
          (1 + a.interestRate / 100 / 12) ^ (a.loanTerm * 12) /
          ((1 + a.interestRate / 100 / 12) ^ (a.loanTerm * 12) - 1) +
          a.propertyTaxRate / 100 / 12 + a.insuranceRate / 100 / 12 := by
        have ht : 0 ≤ a.propertyTaxRate / 100 / 12 := by positivity
        have hi : 0 ≤ a.insuranceRate / 100 / 12 := by positivity
        linarith
      exact div_neg_of_neg_of_pos hav hD
  have hmh : maxHomePrice a - a.downPayment = maxLoanAmount a := by
    rw [maxHomePrice]
    ring
  refine ⟨hav, by rw [hmh]; exact hml, ?_, ?_⟩
  · simp only [affordability, hmh]
    by_cases hz : a.interestRate / 100 / 12 = 0
    · rw [if_pos hz]
      exact div_neg_of_neg_of_pos hml hnQ
    · rw [if_neg hz]
      have hr : 0 < a.interestRate / 100 / 12 := by
        rcases lt_or_eq_of_le hIr with h1 | h1
        · positivity
        · exact absurd (by rw [← h1]; norm_num) hz
      have hq : 1 < (1 + a.interestRate / 100 / 12) ^ (a.loanTerm * 12) := by
        calc (1 : ℚ) = 1 ^ (a.loanTerm * 12) := (one_pow _).symm
          _ < (1 + a.interestRate / 100 / 12) ^ (a.loanTerm * 12) :=
            pow_lt_pow_left₀ (by linarith) (by norm_num) hn0
      exact div_neg_of_neg_of_pos
        (mul_neg_of_neg_of_pos hml (mul_pos hr (by positivity)))
        (by linarith)
  · rfl

/-- Witness for C7 at `annualIncome = 12000` (monthly income 1000, back-end
cap 360), `monthlyDebts = 500`, `downPayment = 1000`, `interestRate = 5`,
`loanTerm = 30`, `propertyTaxRate = 1`, `insuranceRate = 2`. -/
theorem afford_negative_passthrough_witness :
    (ValidAfford ⟨12000, 500, 1000, 5, 30, 1, 2⟩ ∧
      (12000 : ℚ) / 12 * 0.36 < 500) ∧
    (availableForHousing ⟨12000, 500, 1000, 5, 30, 1, 2⟩ < 0 ∧
      maxHomePrice ⟨12000, 500, 1000, 5, 30, 1, 2⟩ - 1000 < 0 ∧
      (affordability ⟨12000, 500, 1000, 5, 30, 1, 2⟩).paymentBreakdown.principalAndInterest < 0 ∧
      (affordability ⟨12000, 500, 1000, 5, 30, 1, 2⟩).monthlyPayment =
        (affordability ⟨12000, 500, 1000, 5, 30, 1, 2⟩).paymentBreakdown.principalAndInterest +
          (affordability ⟨12000, 500, 1000, 5, 30, 1, 2⟩).paymentBreakdown.taxes +
          (affordability ⟨12000, 500, 1000, 5, 30, 1, 2⟩).paymentBreakdown.insurance) :=
  ⟨⟨by decide, by norm_num⟩,
   afford_negative_passthrough ⟨12000, 500, 1000, 5, 30, 1, 2⟩ (by decide)
     (by norm_num)⟩

/-- C8. Two loan options identical except for `points` (one zero, one
`p > 0`) receive identical `monthlyPayment` and `totalInterest`, and the
`totalCost` of the option with points exceeds the other's by exactly
`p / 100 * amount`. -/
theorem compare_points_only_cost (o1 o2 : LoanOption) (p : ℚ)
    (ha : o2.amount = o1.amount) (hr : o2.interestRate = o1.interestRate)
    (ht : o2.term = o1.term) (hty : o2.type = o1.type)
    (hf : o2.fees = o1.fees) (h1 : o1.points = 0) (h2 : o2.points = p)
    (hp : 0 < p) :
    (compareOption o2).monthlyPayment = (compareOption o1).monthlyPayment ∧
    (compareOption o2).totalInterest = (compareOption o1).totalInterest ∧
    (compareOption o2).totalCost =
      (compareOption o1).totalCost + p / 100 * o1.amount := by
  simp only [compareOption, ha, hr, ht, hf, h1, h2]
  refine ⟨trivial, trivial, ?_⟩
  ring

/-- Witness for C8: two 15-year options on 100000 at 4%, fees 500, one with
0 points and one with 2 points. -/
theorem compare_points_only_cost_witness :
    ((2 : ℚ) > 0) ∧
    (compareOption ⟨100000, 4, 15, "fixed", 2, 500⟩).monthlyPayment =
      (compareOption ⟨100000, 4, 15, "fixed", 0, 500⟩).monthlyPayment ∧
    (compareOption ⟨100000, 4, 15, "fixed", 2, 500⟩).totalInterest =
      (compareOption ⟨100000, 4, 15, "fixed", 0, 500⟩).totalInterest ∧
    (compareOption ⟨100000, 4, 15, "fixed", 2, 500⟩).totalCost =
      (compareOption ⟨100000, 4, 15, "fixed", 0, 500⟩).totalCost +
        (2 : ℚ) / 100 * 100000 :=
  ⟨by decide,
   compare_points_only_cost ⟨100000, 4, 15, "fixed", 0, 500⟩
     ⟨100000, 4, 15, "fixed", 2, 500⟩ 2 rfl rfl rfl rfl rfl rfl rfl
     (by decide)⟩

end Mortgage
